import Mathlib

/-!
Shallow embedding of the `arcy` crate (`src/lib.rs`).

`Arcy<T>` is an `Arc`-like shared-ownership handle that runs an asynchronous
finalizer (`AsyncDrop::async_drop`) when the last handle is destroyed.  The
implementation consists of:

  * `ArcyInner<T>(T, AtomicUsize)` — the shared cell: payload plus a custom
    atomic reference counter, wrapped in a `std::sync::Arc`;
  * a `tokio::sync::Notify` — the one-shot notification channel;
  * `Arcy::new` — allocates the cell with count 1, creates the `Notify`,
    spawns the `slayer` background task (holding a second `Arc` clone of the
    cell), and returns the first handle together with the task's join handle;
  * `Arcy::clone` — `fetch_add(1, Relaxed)` on the custom counter plus
    `Arc::clone` of both the cell and the notify;
  * `<Arcy as Drop>::drop` — `fetch_sub(1, Release)` on the custom counter;
    if the previous value was 1: `fence(Acquire)` then `notify_one()`;
  * `Arcy::slayer` — `notify.notified().await`, then
    `Arc::try_unwrap(inner).unwrap_or_else(|_| unreachable!())`, then
    `inner.0.async_drop().await`.

The embedding is a small-step transition system over the state of one shared
cell.  Two points of fidelity matter:

  * A handle is destroyed in two observable steps, exactly as Rust drop glue
    executes: first the `Drop::drop` body runs (decrementing the custom
    counter and possibly signalling), and only afterwards are the handle's
    fields dropped (decrementing the strong count of the inner `Arc`).
    Other tasks may be scheduled between the two steps.
  * The custom counter and the `Arc`'s own strong count are distinct
    counters.  `Arc::try_unwrap` in `slayer` succeeds exactly when the
    strong count is 1 (only the slayer's own clone remains); otherwise it
    returns `Err` and the `unreachable!()` arm panics.  The panic's
    unwinding is modelled too: the `Err` value returned to the closure —
    the slayer's own `Arc` reference — is dropped during the unwind,
    and when the last strong reference of the `Arc<ArcyInner<T>>` is
    dropped (by a handle's field drop or by that unwind), ordinary
    synchronous drop glue destroys the `ArcyInner` and with it the
    payload, without ever calling `async_drop`.

Memory-ordering annotations of the atomic operations are transcribed as
event lists (`AtomicEvent`), since a shallow embedding interleaves whole
atomic operations and cannot exhibit weak-memory reorderings.
-/

/-- Memory orderings appearing in `src/lib.rs`. -/
inductive MemOrder
  | relaxed
  | release
  | acquire
deriving DecidableEq, Repr

/-- Atomic / synchronization events issued by the handle operations. -/
inductive AtomicEvent
  | fetchAdd (n : Nat) (o : MemOrder)
  | fetchSub (n : Nat) (o : MemOrder)
  | fence (o : MemOrder)
  | notifyOne
deriving DecidableEq, Repr

/-- Transcription of the body of `<Arcy<T> as Drop>::drop` (src/lib.rs lines
135-142) as a function of the counter value it reads.  Given the previous
value `prev` of the custom counter it returns the new counter value, whether
`notify_one` is called, and the ordered list of atomic events issued:
`fetch_sub(1, Release)` always; if the previous value was 1, additionally
`fence(Acquire)` followed by `notify_one()`; otherwise the early `return`
is taken and nothing else happens. -/
def releaseStep (prev : Nat) : Nat × Bool × List AtomicEvent :=
  if prev ≠ 1 then
    (prev - 1, false, [.fetchSub 1 .release])
  else
    (prev - 1, true, [.fetchSub 1 .release, .fence .acquire, .notifyOne])

/-- Atomic events issued by `Arcy::clone` (src/lib.rs line 116):
a single `fetch_add(1, Relaxed)` on the custom counter. -/
def cloneEvents : List AtomicEvent := [.fetchAdd 1 .relaxed]

/-- Control state of the `slayer` task spawned by `Arcy::new`. -/
inductive SlayerSt
  | spawned            -- task exists, has not yet polled `notified()`
  | waiting            -- suspended in `notify.notified().await`
  | running            -- resumed past the await, before `Arc::try_unwrap`
  | hasValue           -- `Arc::try_unwrap` succeeded; owns the `ArcyInner`
  | finalizing         -- `async_drop` invoked, awaiting its completion
  | done (ok : Bool)   -- task finished; `ok = false` means the finalizer failed
  | panicked           -- the `unreachable!()` arm of `try_unwrap` was taken
  | unwound            -- the panicked task's unwinding dropped its `Arc` reference
deriving DecidableEq, Repr

/-- True when the slayer has taken the shared cell by value
(successful `Arc::try_unwrap` and onwards). -/
def SlayerSt.ownsValue : SlayerSt → Bool
  | .hasValue | .finalizing | .done _ => true
  | _ => false

/-- True while the slayer task still holds its own `Arc` reference to the
shared cell (from spawn until either a successful `try_unwrap` consumes it
or the post-panic unwinding drops it). -/
def SlayerSt.holdsArc : SlayerSt → Bool
  | .spawned | .waiting | .running | .panicked => true
  | _ => false

/-- True when the slayer task has terminated normally. -/
def SlayerSt.isDone : SlayerSt → Bool
  | .done _ => true
  | _ => false

/-- True once `async_drop` has been invoked. -/
def SlayerSt.invoked : SlayerSt → Bool
  | .finalizing | .done _ => true
  | _ => false

/-- Global state of one shared cell and the tasks around it. -/
structure SysState where
  /-- the custom counter `ArcyInner.1 : AtomicUsize` -/
  count : Nat
  /-- live `Arcy` handles whose destruction has not begun -/
  handles : Nat
  /-- handles whose `Drop::drop` body has run but whose `Arc` fields
      have not yet been dropped (drop glue still in progress) -/
  midDrop : Nat
  /-- strong count of the `Arc<ArcyInner<T>>` -/
  arcStrong : Nat
  /-- stored permit of the `tokio::sync::Notify` -/
  permit : Bool
  /-- control state of the slayer task -/
  slayer : SlayerSt
  /-- number of invocations of `AsyncDrop::async_drop` -/
  finCalls : Nat
  /-- whether the payload value has been destroyed -/
  valueDropped : Bool
deriving DecidableEq, Repr

/-- State established by `Arcy::new` (src/lib.rs lines 107-112): custom
counter 1, `Arc` strong count 2 (the first handle's reference plus the clone
passed to the spawned slayer), fresh `Notify` with no stored permit, slayer
task spawned but not yet polled, finalizer never invoked. -/
def initState : SysState :=
  { count := 1, handles := 1, midDrop := 0, arcStrong := 2,
    permit := false, slayer := .spawned, finCalls := 0, valueDropped := false }

/-- Interleaving labels: one label per atomic step of some task. -/
inductive Label
  | clone                  -- `Arcy::clone` on some live handle
  | dropBody               -- the `Drop::drop` body of some live handle
  | dropFields             -- the drop of that handle's `Arc` fields
  | slayerPoll             -- the slayer polls `notified()`
  | slayerUnwrap           -- the slayer executes `Arc::try_unwrap`
  | slayerFinStart         -- the slayer invokes `async_drop`
  | slayerFinEnd (ok : Bool) -- `async_drop` completes (`ok`) or panics
  | slayerUnwind           -- the panicked slayer unwinds, dropping its `Arc`
deriving DecidableEq, Repr

/-- One small step of the system.  `none` means the label is not enabled in
this state.  The `dropBody` case routes through `releaseStep`, the direct
transcription of the `Drop` body; `notify_one` wakes the slayer if it is
currently waiting and otherwise stores a permit (tokio `Notify` semantics).
`slayerUnwrap` transcribes `Arc::try_unwrap(inner).unwrap_or_else(|_|
unreachable!())`: success exactly when the strong count is 1.  Dropping an
`Arc<ArcyInner<T>>` reference — a handle's field drop (`dropFields`) or the
panicked slayer's unwinding (`slayerUnwind`) — destroys the `ArcyInner` and
the payload by ordinary synchronous drop glue when it releases the last
strong reference, without invoking `async_drop`. -/
def applyLabel (s : SysState) : Label → Option SysState
  | .clone =>
      if 1 ≤ s.handles then
        some { s with count := s.count + 1, handles := s.handles + 1,
                      arcStrong := s.arcStrong + 1 }
      else none
  | .dropBody =>
      if 1 ≤ s.handles then
        let r := releaseStep s.count
        let s1 := { s with count := r.1, handles := s.handles - 1,
                           midDrop := s.midDrop + 1 }
        if r.2.1 then
          match s1.slayer with
          | .waiting => some { s1 with slayer := .running }
          | _ => some { s1 with permit := true }
        else some s1
      else none
  | .dropFields =>
      if 1 ≤ s.midDrop then
        some { s with midDrop := s.midDrop - 1, arcStrong := s.arcStrong - 1,
                      valueDropped := s.valueDropped || decide (s.arcStrong = 1) }
      else none
  | .slayerPoll =>
      match s.slayer with
      | .spawned =>
          if s.permit then some { s with slayer := .running, permit := false }
          else some { s with slayer := .waiting }
      | _ => none
  | .slayerUnwrap =>
      match s.slayer with
      | .running =>
          if s.arcStrong = 1 then
            some { s with slayer := .hasValue, arcStrong := 0 }
          else
            some { s with slayer := .panicked }
      | _ => none
  | .slayerFinStart =>
      match s.slayer with
      | .hasValue => some { s with slayer := .finalizing, finCalls := s.finCalls + 1 }
      | _ => none
  | .slayerFinEnd ok =>
      match s.slayer with
      | .finalizing => some { s with slayer := .done ok, valueDropped := true }
      | _ => none
  | .slayerUnwind =>
      match s.slayer with
      | .panicked =>
          some { s with slayer := .unwound, arcStrong := s.arcStrong - 1,
                        valueDropped := s.valueDropped || decide (s.arcStrong = 1) }
      | _ => none

/-- Run a list of labels from a state, failing if any label is disabled. -/
def runLabels (s : SysState) : List Label → Option SysState
  | [] => some s
  | l :: ls =>
      match applyLabel s l with
      | some s' => runLabels s' ls
      | none => none

/-- Reachability from the state established by `Arcy::new`. -/
inductive Reach : SysState → Prop
  | init : Reach initState
  | step (s s' : SysState) (l : Label) : Reach s → applyLabel s l = some s' → Reach s'

/-- Decidable check that no label is enabled: the whole system is stuck. -/
def noStep (s : SysState) : Bool :=
  [Label.clone, .dropBody, .dropFields, .slayerPoll, .slayerUnwrap,
   .slayerFinStart, .slayerFinEnd true, .slayerFinEnd false, .slayerUnwind].all
    fun l => (applyLabel s l).isNone

/-- Result observable through the `JoinHandle` returned by `Arcy::new`:
`none` while the slayer task is still live, `some true` on normal completion,
`some false` when the task ended in a panic of the finalizer or of the
`unreachable!()` arm (tokio surfaces either as a `JoinError`). -/
def joinToken (s : SysState) : Option Bool :=
  match s.slayer with
  | .done ok => some ok
  | .panicked => some false
  | .unwound => some false
  | _ => none

/-- An `Arcy<T>` handle as a pair of pointers (modelled as addresses): one to
the shared `ArcyInner` allocation, one to the shared `Notify`. -/
structure ArcyHandle where
  inner : Nat
  notify : Nat
deriving DecidableEq, Repr

/-- Address of the one shared cell of a system. -/
def cellAddr : Nat := 0

/-- Address of the one notification channel of a system. -/
def notifyAddr : Nat := 0

/-- Transcription of `Arcy::clone` (src/lib.rs lines 114-121) at the handle
level: `Arc::clone` of both fields yields a handle with the same two
addresses, and the counter is bumped by `fetch_add(1, Relaxed)`. -/
def cloneHandle (h : ArcyHandle) : ArcyHandle × List AtomicEvent :=
  ({ inner := h.inner, notify := h.notify }, cloneEvents)

/-- Transcription of `<Arcy<T> as Deref>::deref` (src/lib.rs lines 145-154):
read the payload field of the cell the handle points to. -/
def derefHandle {α : Type} (heap : Nat → α) (h : ArcyHandle) : α :=
  heap h.inner

/-- Transcription of `Arcy::new` at the interface level: the first handle
(pointing at the freshly allocated cell and channel), the number of
background tasks spawned, and the initial shared state. -/
def arcyNew : ArcyHandle × Nat × SysState :=
  ({ inner := cellAddr, notify := notifyAddr }, 1, initState)

/-- Await expressions occurring in the source, by suspension point. -/
inductive AwaitPoint
  | notifiedWait       -- `notify.notified().await` in `slayer`
  | asyncDropAwait     -- `inner.0.async_drop().await` in `slayer`
deriving DecidableEq, Repr

/-- Await expressions in the body of `Arcy::new`: none. -/
def newAwaits : List AwaitPoint := []

/-- Await expressions in the body of `Arcy::clone`: none (it is declared
`async` but its body contains no `.await`, so its future is ready on the
first poll and never suspends). -/
def cloneAwaits : List AwaitPoint := []

/-- Await expressions in `<Arcy<T> as Drop>::drop`: none (a synchronous
function). -/
def dropAwaits : List AwaitPoint := []

/-- Await expressions in the body of `Arcy::slayer`, in source order
(src/lib.rs lines 123-128). -/
def slayerAwaits : List AwaitPoint := [.notifiedWait, .asyncDropAwait]

/-- How `AsyncDrop::async_drop` receives the payload. -/
inductive SelfMode
  | byValue
  | byRef
  | byMutRef
deriving DecidableEq, Repr

/-- Transcribed from the trait declaration `async fn async_drop(self)`
(src/lib.rs line 96): the finalizer consumes `self` by value. -/
def asyncDropSelfMode : SelfMode := .byValue

/-- Inductive invariant of the transition system:
the custom counter always equals the number of live handles; while the
slayer holds its own `Arc` reference the strong count is 1 plus one per
live or mid-drop handle, after a successful `try_unwrap` it is 0 with no
handle left, and after the post-panic unwind it is exactly one per live or
mid-drop handle; `async_drop` runs at most once; the payload is destroyed
exactly on finalizer termination (normal path) or when the last strong
reference is dropped after the slayer panicked (error path, finalizer
never invoked). -/
def SysInv (s : SysState) : Prop :=
  s.count = s.handles ∧
  (s.slayer.ownsValue = true → s.arcStrong = 0 ∧ s.handles = 0 ∧ s.midDrop = 0) ∧
  (s.slayer.holdsArc = true → s.arcStrong = 1 + s.handles + s.midDrop) ∧
  (s.slayer = .unwound → s.arcStrong = s.handles + s.midDrop) ∧
  s.finCalls = (if s.slayer.invoked then 1 else 0) ∧
  (s.slayer.isDone = true → s.valueDropped = true) ∧
  (s.valueDropped = true →
    s.slayer.isDone = true ∨ (s.slayer = .unwound ∧ s.arcStrong = 0))

/-- State reached from `initState` by the label sequence `[dropBody]`: the
single handle has run its `Drop` body (zero transition, permit stored in the
`Notify`), but its `Arc` field is not yet dropped. -/
def permitState : SysState :=
  { count := 0, handles := 0, midDrop := 1, arcStrong := 2, permit := true,
    slayer := .spawned, finCalls := 0, valueDropped := false }

/-- State reached from `initState` by the label sequence
`[dropBody, dropFields, slayerPoll, slayerUnwrap]`: the slayer holds the
`ArcyInner` by value after a successful `Arc::try_unwrap` and has not yet
invoked the finalizer. -/
def unwrapEnd : SysState :=
  { count := 0, handles := 0, midDrop := 0, arcStrong := 0, permit := false,
    slayer := .hasValue, finCalls := 0, valueDropped := false }

/-- State reached from `initState` by the label sequence
`[dropBody, dropFields, slayerPoll, slayerUnwrap, slayerFinStart,
slayerFinEnd false]`: the finalizer was invoked once and failed; the slayer
task has ended with that failure. -/
def failTraceEnd : SysState :=
  { count := 0, handles := 0, midDrop := 0, arcStrong := 0, permit := false,
    slayer := .done false, finCalls := 1, valueDropped := true }

theorem releaseStep_count (prev : Nat) : (releaseStep prev).1 = prev - 1 := by
  unfold releaseStep
  by_cases h : prev = 1 <;> simp [h]

theorem releaseStep_signal (prev : Nat) : (releaseStep prev).2.1 = decide (prev = 1) := by
  unfold releaseStep
  by_cases h : prev = 1 <;> simp [h]

theorem invoked_of_isDone (st : SlayerSt) (h : st.isDone = true) : st.invoked = true := by
  cases st <;> simp_all [SlayerSt.isDone, SlayerSt.invoked]

theorem sysInv_init : SysInv initState := by
  refine ⟨rfl, fun h => ?_, fun _ => rfl, fun h => ?_, rfl, fun h => ?_, fun h => ?_⟩
  · simp [initState, SlayerSt.ownsValue] at h
  · simp [initState] at h
  · simp [initState, SlayerSt.isDone] at h
  · simp [initState] at h

set_option maxRecDepth 4000 in
theorem sysInv_step (s s' : SysState) (l : Label) (hi : SysInv s)
    (h : applyLabel s l = some s') : SysInv s' := by
  obtain ⟨h1, h2, h3, h4, h5, h6, h7⟩ := hi
  cases l with
  | clone =>
      simp only [applyLabel] at h
      split at h
      · rw [Option.some.injEq] at h
        subst h
        cases hvd : s.valueDropped <;> cases hs : s.slayer <;>
          simp_all [SysInv, SlayerSt.ownsValue, SlayerSt.holdsArc,
            SlayerSt.invoked, SlayerSt.isDone] <;>
          omega
      · exact Option.noConfusion h
  | dropBody =>
      simp only [applyLabel, releaseStep_count, releaseStep_signal] at h
      split at h
      · split at h
        · split at h
          · rw [Option.some.injEq] at h
            subst h
            cases hvd : s.valueDropped <;>
              simp_all [SysInv, SlayerSt.ownsValue, SlayerSt.holdsArc,
                SlayerSt.invoked, SlayerSt.isDone]
            all_goals omega
          · rw [Option.some.injEq] at h
            subst h
            cases hvd : s.valueDropped <;> cases hs : s.slayer <;>
              simp_all [SysInv, SlayerSt.ownsValue, SlayerSt.holdsArc,
                SlayerSt.invoked, SlayerSt.isDone] <;>
              omega
        · rw [Option.some.injEq] at h
          subst h
          cases hvd : s.valueDropped <;> cases hs : s.slayer <;>
            simp_all [SysInv, SlayerSt.ownsValue, SlayerSt.holdsArc,
              SlayerSt.invoked, SlayerSt.isDone] <;>
            omega
      · exact Option.noConfusion h
  | dropFields =>
      simp only [applyLabel] at h
      split at h
      · rw [Option.some.injEq] at h
        subst h
        cases hvd : s.valueDropped <;> cases hs : s.slayer <;>
          simp_all [SysInv, SlayerSt.ownsValue, SlayerSt.holdsArc,
            SlayerSt.invoked, SlayerSt.isDone] <;>
          omega
      · exact Option.noConfusion h
  | slayerPoll =>
      simp only [applyLabel] at h
      split at h
      · split at h <;>
          (rw [Option.some.injEq] at h
           subst h
           cases hvd : s.valueDropped <;>
             simp_all [SysInv, SlayerSt.ownsValue, SlayerSt.holdsArc,
               SlayerSt.invoked, SlayerSt.isDone])
      · exact Option.noConfusion h
  | slayerUnwrap =>
      simp only [applyLabel] at h
      split at h
      · rename_i heq
        have h3' := h3 (by rw [heq]; rfl)
        split at h
        · rename_i ha
          rw [Option.some.injEq] at h
          subst h
          refine ⟨h1, fun _ => ⟨rfl, show s.handles = 0 by omega,
              show s.midDrop = 0 by omega⟩, fun hf => ?_, fun hu => ?_, ?_,
              fun hD => ?_, fun hvd => ?_⟩
          · simp [SlayerSt.holdsArc] at hf
          · simp at hu
          · rw [heq] at h5
            simpa [SlayerSt.invoked] using h5
          · simp [SlayerSt.isDone] at hD
          · exact absurd (h7 hvd) (by rw [heq]; simp [SlayerSt.isDone])
        · rename_i ha
          rw [Option.some.injEq] at h
          subst h
          refine ⟨h1, fun hf => ?_, fun _ => h3', fun hu => ?_, ?_,
              fun hD => ?_, fun hvd => ?_⟩
          · simp [SlayerSt.ownsValue] at hf
          · simp at hu
          · rw [heq] at h5
            simpa [SlayerSt.invoked] using h5
          · simp [SlayerSt.isDone] at hD
          · exact absurd (h7 hvd) (by rw [heq]; simp [SlayerSt.isDone])
      · exact Option.noConfusion h
  | slayerFinStart =>
      simp only [applyLabel] at h
      split at h
      · rw [Option.some.injEq] at h
        subst h
        cases hvd : s.valueDropped <;>
          simp_all [SysInv, SlayerSt.ownsValue, SlayerSt.holdsArc,
            SlayerSt.invoked, SlayerSt.isDone]
      · exact Option.noConfusion h
  | slayerFinEnd ok =>
      simp only [applyLabel] at h
      split at h
      · rw [Option.some.injEq] at h
        subst h
        cases hvd : s.valueDropped <;>
          simp_all [SysInv, SlayerSt.ownsValue, SlayerSt.holdsArc,
            SlayerSt.invoked, SlayerSt.isDone]
      · exact Option.noConfusion h
  | slayerUnwind =>
      simp only [applyLabel] at h
      split at h
      · rename_i heq
        have h3' := h3 (by rw [heq]; rfl)
        have hvf : s.valueDropped = false := by
          cases hv : s.valueDropped
          · rfl
          · exact absurd (h7 hv) (by rw [heq]; simp [SlayerSt.isDone])
        rw [Option.some.injEq] at h
        subst h
        refine ⟨h1, fun ho => ?_, fun hf => ?_,
            fun _ => show s.arcStrong - 1 = s.handles + s.midDrop by omega,
            ?_, fun hD => ?_, fun hvd => ?_⟩
        · simp [SlayerSt.ownsValue] at ho
        · simp [SlayerSt.holdsArc] at hf
        · rw [heq] at h5
          simpa [SlayerSt.invoked] using h5
        · simp [SlayerSt.isDone] at hD
        · refine Or.inr ⟨rfl, ?_⟩
          have hvd' : (s.valueDropped || decide (s.arcStrong = 1)) = true := hvd
          rw [hvf] at hvd'
          simp only [Bool.false_or, decide_eq_true_eq] at hvd'
          show s.arcStrong - 1 = 0
          omega
      · exact Option.noConfusion h

theorem sysInv_reach (s : SysState) (h : Reach s) : SysInv s := by
  induction h with
  | init => exact sysInv_init
  | step s s' l _ hl ih => exact sysInv_step s s' l ih hl

theorem reach_run (ls : List Label) (s s' : SysState) (hs : Reach s)
    (h : runLabels s ls = some s') : Reach s' := by
  induction ls generalizing s with
  | nil =>
      simp only [runLabels, Option.some.injEq] at h
      subst h
      exact hs
  | cons l ls ih =>
      simp only [runLabels] at h
      cases hl : applyLabel s l with
      | none => rw [hl] at h; cases h
      | some t =>
          rw [hl] at h
          exact ih t (Reach.step s t l hs hl) h

theorem noStep_spec (s : SysState) (h : noStep s = true) (l : Label) :
    applyLabel s l = none := by
  simp only [noStep, List.all_cons, List.all_nil, Bool.and_true,
    Bool.and_eq_true, Option.isNone_iff_eq_none] at h
  cases l with
  | clone => exact h.1
  | dropBody => exact h.2.1
  | dropFields => exact h.2.2.1
  | slayerPoll => exact h.2.2.2.1
  | slayerUnwrap => exact h.2.2.2.2.1
  | slayerFinStart => exact h.2.2.2.2.2.1
  | slayerFinEnd ok =>
      cases ok
      · exact h.2.2.2.2.2.2.2.1
      · exact h.2.2.2.2.2.2.1
  | slayerUnwind => exact h.2.2.2.2.2.2.2.2

/-- Claim C1 (refuted by the code): the claim states that for every N >= 1
clones followed by N+1 releases, `async_drop` runs exactly once, after the
last release.  This theorem evaluates the code at a failing interleaving
with N = 1: the slayer task is waiting, the handle is cloned once, the first
handle's drop completes, the second handle's `Drop` body decrements the
count to zero and wakes the slayer, and the slayer executes
`Arc::try_unwrap` before the second handle's `Arc` field is dropped.  The
strong count is still 2, the `unreachable!()` arm panics, and after the
last field drop and the panicked task's unwind the system is stuck with
both releases fully completed, the finalizer never invoked
(`finCalls = 0`), and the payload destroyed by plain drop glue instead. -/
theorem c1_race_skips_finalizer :
    (runLabels initState [.slayerPoll, .clone, .dropBody, .dropFields, .dropBody,
        .slayerUnwrap, .dropFields, .slayerUnwind]).map
      (fun s => (s.handles, s.midDrop, s.finCalls, s.slayer, s.valueDropped, noStep s)) =
      some (0, 0, 0, SlayerSt.unwound, true, true) := by
  decide

/-- Claim C2 (refuted by the code): the claim states that the failure branch
of `Arc::try_unwrap` in `slayer` (the `unreachable!()` arm) is never taken
in any interleaving where the last release signals the channel.  This
theorem exhibits an interleaving taking it: the slayer waits, the only
handle's `Drop` body performs the zero transition and wakes the slayer, and
the slayer resumes before the handle's `Arc` field is dropped: it observes
strong count 2, `Arc::try_unwrap` returns `Err`, and the task panics. -/
theorem c2_try_unwrap_failure_branch_taken :
    ((runLabels initState [.slayerPoll, .dropBody]).map
      (fun s => (s.slayer, s.arcStrong, s.count)) = some (SlayerSt.running, 2, 0)) ∧
    ((runLabels initState [.slayerPoll, .dropBody, .slayerUnwrap]).map SysState.slayer =
      some SlayerSt.panicked) := by
  decide

/-- Claim C3 (confirmed): the release operation decrements the counter by
one with a `Release`-ordered `fetch_sub`; exactly when the previous value
was 1 it additionally issues an `Acquire` fence followed by exactly one
`notify_one` signal; when the previous value differs from 1 the early
return is taken and the decrement is the only event. -/
theorem c3_release_decrement_fence_signal (prev : Nat) :
    (releaseStep prev).1 = prev - 1 ∧
    ((releaseStep prev).2.1 = true ↔ prev = 1) ∧
    ((releaseStep prev).2.2 =
      if prev = 1 then
        [AtomicEvent.fetchSub 1 .release, .fence .acquire, .notifyOne]
      else [AtomicEvent.fetchSub 1 .release]) ∧
    ((releaseStep prev).2.2.count .notifyOne = if prev = 1 then 1 else 0) ∧
    (AtomicEvent.fetchSub 1 .release ∈ (releaseStep prev).2.2) := by
  unfold releaseStep
  by_cases h : prev = 1 <;> simp [h]

/-- Claim C4 (confirmed): in every reachable state the shared cell's atomic
count equals the number of live handles; `Arcy::new` initializes it to 1,
every enabled clone step increases it by exactly 1, and every enabled
release step decreases it by exactly 1. -/
theorem c4_count_tracks_live_handles (s : SysState) (h : Reach s) :
    s.count = s.handles ∧
    initState.count = 1 ∧
    (1 ≤ s.handles → (applyLabel s .clone).map SysState.count = some (s.count + 1)) ∧
    (1 ≤ s.handles → (applyLabel s .dropBody).map SysState.count = some (s.count - 1)) := by
  refine ⟨(sysInv_reach s h).1, rfl, fun h1 => ?_, fun h1 => ?_⟩
  · simp [applyLabel, h1]
  · simp only [applyLabel]
    rw [if_pos h1]
    split
    · split <;> simp [releaseStep_count]
    · simp [releaseStep_count]

theorem c4_count_tracks_live_handles_witness :
    initState.count = initState.handles ∧
    (applyLabel initState .clone).map SysState.count = some (initState.count + 1) ∧
    (applyLabel initState .dropBody).map SysState.count = some (initState.count - 1) := by
  have h := c4_count_tracks_live_handles initState Reach.init
  exact ⟨h.1, h.2.2.1 (by decide), h.2.2.2 (by decide)⟩

/-- Claim C5 (confirmed): `Arcy::new` allocates the shared cell with count
1 and `Arc` strong count 2 (first handle plus the task's clone), creates a
fresh notification channel with no stored permit, spawns exactly one
finalizer task (not yet waiting), and returns the first handle pointing at
that cell and channel together with a join token that is still pending. -/
theorem c5_create_initialization :
    arcyNew.1 = { inner := cellAddr, notify := notifyAddr } ∧
    arcyNew.2.1 = 1 ∧
    arcyNew.2.2 = initState ∧
    initState.count = 1 ∧
    initState.handles = 1 ∧
    initState.arcStrong = 2 ∧
    initState.permit = false ∧
    initState.slayer = SlayerSt.spawned ∧
    initState.finCalls = 0 ∧
    joinToken initState = none := by
  decide

/-- Claim C6 (confirmed): in every reachable state the finalizer has run at
most once, and if the slayer task ended with a failing finalizer then that
failure is observable through the join token, the finalizer was invoked
exactly once (never retried), the payload was still destroyed and the
shared cell's allocation was already consumed (strong count 0). -/
theorem c6_finalizer_failure_surfaced (s : SysState) (h : Reach s) :
    s.finCalls ≤ 1 ∧
    (s.slayer = SlayerSt.done false →
      joinToken s = some false ∧ s.finCalls = 1 ∧ s.valueDropped = true ∧
      s.arcStrong = 0) := by
  obtain ⟨h1, h2, h3, h4, h5, h6, h7⟩ := sysInv_reach s h
  constructor
  · rw [h5]
    split <;> omega
  · intro hd
    refine ⟨by simp [joinToken, hd], ?_, ?_, (h2 (by rw [hd]; rfl)).1⟩
    · rw [hd] at h5
      simpa [SlayerSt.invoked] using h5
    · exact h6 (by rw [hd]; rfl)

theorem c6_finalizer_failure_surfaced_witness :
    joinToken failTraceEnd = some false ∧ failTraceEnd.finCalls = 1 ∧
    failTraceEnd.valueDropped = true ∧ failTraceEnd.arcStrong = 0 := by
  have hr : Reach failTraceEnd :=
    reach_run [.dropBody, .dropFields, .slayerPoll, .slayerUnwrap, .slayerFinStart,
      .slayerFinEnd false] initState failTraceEnd Reach.init (by decide)
  exact (c6_finalizer_failure_surfaced failTraceEnd hr).2 rfl

/-- Claim C7 (confirmed): `Arcy::clone` issues a single relaxed `fetch_add`
of 1 on the shared counter and returns a handle pointing at the same shared
cell and the same notification channel as its source, so dereferencing the
clone reads the same payload as dereferencing the original. -/
theorem c7_clone_aliases_and_relaxed_increment {α : Type} (heap : Nat → α)
    (h : ArcyHandle) :
    (cloneHandle h).1.inner = h.inner ∧
    (cloneHandle h).1.notify = h.notify ∧
    (cloneHandle h).2 = [AtomicEvent.fetchAdd 1 .relaxed] ∧
    derefHandle heap (cloneHandle h).1 = derefHandle heap h :=
  ⟨rfl, rfl, rfl, rfl⟩

/-- Claim C8 counterexample: the claim states that the finalizer task's wait
on the notification channel is the only suspension point in the whole
system, but the body of `slayer` contains a second await,
`inner.0.async_drop().await`, so its await list is not the singleton
notified-wait. -/
theorem c8_second_suspension_point :
    ¬ (slayerAwaits = [AwaitPoint.notifiedWait]) ∧
    AwaitPoint.asyncDropAwait ∈ slayerAwaits := by
  decide

/-- Claim C8 as amended (proved): clone and release are synchronous and
never suspend — their bodies contain no await, and whenever a live handle
exists the corresponding steps are enabled unconditionally — while the
finalizer task has exactly two suspension points: the wait on the
notification channel followed by the await of the finalizer itself. -/
theorem c8_sync_ops_and_two_awaits (s : SysState) (h1 : 1 ≤ s.handles) :
    (applyLabel s .clone).isSome = true ∧
    (applyLabel s .dropBody).isSome = true ∧
    newAwaits = [] ∧ cloneAwaits = [] ∧ dropAwaits = [] ∧
    slayerAwaits = [AwaitPoint.notifiedWait, AwaitPoint.asyncDropAwait] := by
  refine ⟨?_, ?_, rfl, rfl, rfl, rfl⟩
  · simp [applyLabel, h1]
  · simp only [applyLabel]
    rw [if_pos h1]
    split
    · split <;> rfl
    · rfl

theorem c8_sync_ops_and_two_awaits_witness :
    (applyLabel initState .clone).isSome = true ∧
    (applyLabel initState .dropBody).isSome = true ∧
    slayerAwaits = [AwaitPoint.notifiedWait, AwaitPoint.asyncDropAwait] := by
  have h := c8_sync_ops_and_two_awaits initState (by decide)
  exact ⟨h.1, h.2.1, h.2.2.2.2.2⟩

/-- Claim C9 counterexample: the claim states the underlying value is
destroyed only after the finalizer's asynchronous operation completes.  On
the reachable racy path the slayer panics at the `unreachable!()` arm
before taking ownership, and when the post-panic unwind drops the last
strong reference the payload is destroyed by ordinary synchronous drop
glue with `async_drop` never invoked: the final stuck state has
`valueDropped = true` and `finCalls = 0`. -/
theorem c9_destroyed_without_finalizer :
    (runLabels initState [.slayerPoll, .dropBody, .slayerUnwrap, .dropFields,
        .slayerUnwind]).map
      (fun s => (s.valueDropped, s.finCalls, s.slayer, noStep s)) =
      some (true, 0, SlayerSt.unwound, true) := by
  decide

/-- Claim C9 as amended (proved): `async_drop` receives the payload by value
(`async fn async_drop(self)`); when the slayer holds the cell after a
successful `Arc::try_unwrap` no handle is live or mid-drop and the strong
count is 0, so no reference to the payload can exist during finalization;
and whenever the payload has been destroyed, that happened either at the
termination of the finalizer's asynchronous operation, by then invoked
exactly once (the normal path), or by the synchronous drop of the last
`Arc` reference after the slayer task panicked, with the finalizer never
invoked (the racy error path of the counterexample). -/
theorem c9_by_value_exclusive_finalization (s : SysState) (h : Reach s) :
    asyncDropSelfMode = SelfMode.byValue ∧
    (s.slayer = SlayerSt.hasValue →
      s.handles = 0 ∧ s.midDrop = 0 ∧ s.count = 0 ∧ s.arcStrong = 0) ∧
    (s.valueDropped = true →
      (s.slayer.isDone = true ∧ s.finCalls = 1) ∨
      (s.slayer = SlayerSt.unwound ∧ s.finCalls = 0)) := by
  obtain ⟨h1, h2, h3, h4, h5, h6, h7⟩ := sysInv_reach s h
  refine ⟨rfl, fun hv => ?_, fun hd => ?_⟩
  · have h2' := h2 (by rw [hv]; rfl)
    exact ⟨h2'.2.1, h2'.2.2, by omega, h2'.1⟩
  · rcases h7 hd with hD | ⟨hU, _⟩
    · exact Or.inl ⟨hD, by rw [h5, if_pos (invoked_of_isDone _ hD)]⟩
    · refine Or.inr ⟨hU, ?_⟩
      rw [hU] at h5
      simpa [SlayerSt.invoked] using h5

theorem c9_by_value_exclusive_finalization_witness :
    asyncDropSelfMode = SelfMode.byValue ∧
    (unwrapEnd.handles = 0 ∧ unwrapEnd.midDrop = 0 ∧ unwrapEnd.count = 0 ∧
      unwrapEnd.arcStrong = 0) := by
  have hr : Reach unwrapEnd :=
    reach_run [.dropBody, .dropFields, .slayerPoll, .slayerUnwrap] initState
      unwrapEnd Reach.init (by decide)
  exact ⟨(c9_by_value_exclusive_finalization unwrapEnd hr).1,
    (c9_by_value_exclusive_finalization unwrapEnd hr).2.1 rfl⟩

/-- Claim C10 counterexample: the claim states that when the last release
signals before the finalizer task has started waiting, the subsequent wait
returns via the stored permit and finalization still occurs.  In this
interleaving the signal is indeed stored and the wait does return by
consuming the permit, but the resumed task executes `Arc::try_unwrap`
before the releasing handle has dropped its `Arc` field, panics at the
`unreachable!()` arm, and after the remaining drops and the unwind the
system ends stuck with the finalizer never invoked — so finalization does
not occur. -/
theorem c10_permit_consumed_without_finalization :
    ((runLabels initState [.dropBody]).map (fun s => (s.permit, s.slayer)) =
      some (true, SlayerSt.spawned)) ∧
    ((runLabels initState [.dropBody, .slayerPoll]).map
      (fun s => (s.permit, s.slayer)) = some (false, SlayerSt.running)) ∧
    ((runLabels initState [.dropBody, .slayerPoll, .slayerUnwrap, .dropFields,
        .slayerUnwind]).map
      (fun s => (s.finCalls, s.slayer, noStep s)) =
      some (0, SlayerSt.unwound, true)) := by
  decide

/-- Claim C10 as amended (proved): the signal is not lost — if the zero
transition stored a permit while the slayer had not yet polled, the slayer's
subsequent wait completes immediately by consuming the stored permit — and
finalization still occurs provided the task takes ownership only after the
last release has fully completed, as in the schedule where both drop steps
of the last handle precede the task's first poll. -/
theorem c10_stored_permit_not_lost (s : SysState) (hsp : s.slayer = SlayerSt.spawned)
    (hp : s.permit = true) :
    applyLabel s .slayerPoll = some { s with slayer := .running, permit := false } ∧
    ((runLabels initState [.dropBody, .dropFields, .slayerPoll, .slayerUnwrap,
        .slayerFinStart, .slayerFinEnd true]).map
      (fun t => (t.finCalls, t.slayer)) = some (1, SlayerSt.done true)) := by
  constructor
  · simp [applyLabel, hsp, hp]
  · decide

theorem c10_stored_permit_not_lost_witness :
    applyLabel permitState .slayerPoll =
      some { permitState with slayer := .running, permit := false } ∧
    ((runLabels initState [.dropBody, .dropFields, .slayerPoll, .slayerUnwrap,
        .slayerFinStart, .slayerFinEnd true]).map
      (fun t => (t.finCalls, t.slayer)) = some (1, SlayerSt.done true)) :=
  c10_stored_permit_not_lost permitState rfl rfl
